import Mathlib

/-!
Shallow embedding of the `p2p` TCP/UDP rendezvous-connection engine
(`src/tcp/stream.rs`, `src/udp/addr_querier.rs`) and proofs about it.

Futures and streams are modelled as explicit lists of events in completion
order; fallible operations return `Except`; ciphertexts and serialised
frames are symbolic terms so that authenticated encryption and framing are
captured algebraically.
-/

/-! ### Timeout constants (src/tcp/stream.rs lines 7-8) -/

def RENDEZVOUS_TIMEOUT_SEC : Nat := 10

def RENDEZVOUS_INFO_EXCHANGE_TIMEOUT_SEC : Nat := 120

/-! ### Keys and shared secrets

Modelled from the spec: the crypto provider is an external collaborator
(spec section 1); keys are a canonical byte serialisation and the key order
is the big-endian (lexicographic) byte compare of that serialisation
(spec section 4.G step 2 and section 9). -/

/-- A public encryption key: its canonical byte serialisation. -/
structure PublicEncryptKey where
  bytes : List Nat
deriving DecidableEq, Repr

/-- A secret encryption key (abstract identity). -/
structure SecretEncryptKey where
  id : Nat
deriving DecidableEq, Repr

/-- Modelled from the spec: the symmetric shared secret derived from one
party's secret key and the other's public key. -/
def sharedSecret (sk : SecretEncryptKey) (pk : PublicEncryptKey) : Nat :=
  Nat.pair sk.id pk.bytes.sum

/-- Modelled from the spec: lexicographic (big-endian byte order) compare of
two key serialisations, as Rust's derived `Ord` on the key's byte array. -/
def keyCmp : List Nat → List Nat → Ordering
  | [], [] => .eq
  | [], _ :: _ => .lt
  | _ :: _, [] => .gt
  | a :: as, b :: bs =>
    if a < b then .lt else if b < a then .gt else keyCmp as bs

/-- The strict `our_pk > their_pk` comparison used by `choose_connections`. -/
def pkGt (a b : PublicEncryptKey) : Bool :=
  keyCmp a.bytes b.bytes == Ordering.gt

/-! ### Symbolic ciphertexts for the choose token -/

/-- Decryption failure (external crypto provider's `EncryptionError`). -/
inductive EncryptionError where
  | decryptFailed
deriving DecidableEq, Repr

/-- `maidsafe_utilities::serialisation::SerialisationError`, abstract. -/
inductive SerialisationError where
  | ser (n : Nat)
deriving DecidableEq, Repr

/-- A symbolic ciphertext travelling on a candidate TCP stream: either the
authenticated encryption of the unit token `ChooseMessage` under some shared
secret, or arbitrary other bytes. -/
inductive Ciphertext where
  | chooseTok (secret : Nat)
  | junk (data : Nat)
deriving DecidableEq, Repr

/-- The unit choose token (src/tcp/stream.rs line 344: `struct ChooseMessage;`). -/
structure ChooseMessage where
deriving DecidableEq, Repr

/-- `shared_secret.encrypt(&ChooseMessage)`: authenticated encryption of the
unit token under `secret`. -/
def encryptChoose (secret : Nat) : Ciphertext :=
  .chooseTok secret

/-- `shared_secret.decrypt(&msg)` specialised to `ChooseMessage`: succeeds
exactly on the authenticated encryption under the same secret. -/
def decryptChoose (secret : Nat) : Ciphertext → Option ChooseMessage
  | .chooseTok s => if s = secret then some ⟨⟩ else none
  | .junk _ => none

/-! ### Error types (src/tcp/stream.rs lines 18-186) -/

/-- `ConnectReusableError` (src/tcp/stream.rs lines 18-35); IO errors are
abstract codes. -/
inductive ConnectReusableError where
  | Bind (e : Nat)
  | Connect (e : Nat)
deriving DecidableEq, Repr

/-- `SingleRendezvousAttemptError` (src/tcp/stream.rs lines 152-186). -/
inductive SingleRendezvousAttemptError where
  | Connect (e : ConnectReusableError)
  | Accept (e : Nat)
  | Write (e : Nat)
  | Read (e : Nat)
  | Decrypt (e : EncryptionError)
  | Encrypt (e : SerialisationError)
deriving DecidableEq, Repr

/-- The `description()` strings of `SingleRendezvousAttemptError`, verbatim
from the `quick_error!` block (src/tcp/stream.rs lines 152-186). -/
def SingleRendezvousAttemptError.description : SingleRendezvousAttemptError → String
  | .Connect _ => "error performing reusable connect"
  | .Accept _ => "error accepting incoming stream"
  | .Write _ => "error writing handshake to connection candidate socket"
  | .Read _ => "error reading handshake on connection candidate socket"
  | .Decrypt _ => "error decrypting data"
  | .Encrypt _ => "error decrypting data"

/-- `TcpRendezvousConnectError<Ei, Eo>` (src/tcp/stream.rs lines 38-64) with
the generic channel error types instantiated to abstract codes. -/
inductive TcpRendezvousConnectError where
  | Bind (e : Nat)
  | IfAddrs (e : Nat)
  | ChannelClosed
  | ChannelTimedOut
  | ChannelRead (e : Nat)
  | ChannelWrite (e : Nat)
  | SerializeMsg (e : SerialisationError)
  | DeserializeMsg (e : SerialisationError)
  | Encrypt (e : EncryptionError)
  | Decrypt (e : EncryptionError)
  | AllAttemptsFailed (errs : List SingleRendezvousAttemptError)
  | RendezvousAddrError (e : Nat)
deriving DecidableEq, Repr

/-! ### Candidate streams and the choose protocol (src/tcp/stream.rs 349-415)

A candidate TCP stream is modelled by what the two relevant operations on it
would observe: the outcome of writing one frame to it, and the first frame
read from it. `all_incoming` is the list, in completion order, of events the
merged connect/accept stream emits: either a live stream or a per-candidate
`Connect`/`Accept` error. -/

/-- Outcome of reading the first frame from a candidate stream. -/
inductive ReadOutcome where
  | readErr (e : Nat)
  | hangUp
  | frame (c : Ciphertext)
deriving DecidableEq, Repr

/-- Outcome of writing one frame to a candidate stream. -/
inductive WriteOutcome where
  | sent
  | writeErr (e : Nat)
deriving DecidableEq, Repr

/-- A live candidate TCP stream. -/
structure CandStream where
  id : Nat
  writeRes : WriteOutcome
  firstRead : ReadOutcome
deriving DecidableEq, Repr

/-- One event of the merged `all_incoming` stream: a live stream, or a
`Connect`/`Accept` error carried inline. -/
inductive CandidateEvent where
  | err (e : SingleRendezvousAttemptError)
  | stream (s : CandStream)
deriving DecidableEq, Repr

/-- Which side of the choose protocol a peer plays. -/
inductive ChooseRole where
  | sender
  | validator
deriving DecidableEq, Repr

/-- The branch taken by `choose_connections` (src/tcp/stream.rs line 362):
the `our_pk > their_pk` side sends the choose token, the other validates. -/
def chooseBranch (our_pk their_pk : PublicEncryptKey) : ChooseRole :=
  if pkGt our_pk their_pk then .sender else .validator

/-- `recv_choose_conn_msg` (src/tcp/stream.rs lines 396-415): read the first
frame; a hang-up with no frame yields `none`, a read error or a frame that
fails to decrypt as `ChooseMessage` is a per-candidate error, a valid
`ChooseMessage` yields the stream. -/
def recv_choose_conn_msg (framed : CandStream) (shared_secret : Nat) :
    Except SingleRendezvousAttemptError (Option CandStream) :=
  match framed.firstRead with
  | .readErr e => .error (.Read e)
  | .hangUp => .ok none
  | .frame msg =>
    match decryptChoose shared_secret msg with
    | none => .error (.Decrypt .decryptFailed)
    | some _ => .ok (some framed)

/-- Per-candidate processing inside `choose_connections`: stream errors from
`all_incoming` pass through; in the sender role each live stream gets the
framed encrypted token written (`framed.send`, line 373), in the validator
role `recv_choose_conn_msg` runs (line 386). -/
def processCandidate (secret : Nat) (role : ChooseRole) :
    CandidateEvent → Except SingleRendezvousAttemptError (Option CandStream)
  | .err e => .error e
  | .stream s =>
    match role with
    | .sender =>
      match s.writeRes with
      | .sent => .ok (some s)
      | .writeErr e => .error (.Write e)
    | .validator => recv_choose_conn_msg s secret

/-- The `first_ok` combinator over the processed candidate stream: the first
candidate yielding a stream wins; filtered-out candidates (`none`) are
skipped silently; if no candidate yields a stream, the errors encountered
are collected in order. -/
def chooseLoop (secret : Nat) (role : ChooseRole) :
    List CandidateEvent → Except (List SingleRendezvousAttemptError) CandStream
  | [] => .error []
  | c :: rest =>
    match processCandidate secret role c with
    | .ok (some s) => .ok s
    | .ok none => chooseLoop secret role rest
    | .error e =>
      match chooseLoop secret role rest with
      | .ok s => .ok s
      | .error es => .error (e :: es)

/-- `choose_connections` (src/tcp/stream.rs lines 349-392): derive the shared
secret, pick the branch by `our_pk > their_pk`, drive the candidates, and on
exhaustion fail with `AllAttemptsFailed` carrying the collected errors. -/
def choose_connections (all_incoming : List CandidateEvent)
    (their_pk : PublicEncryptKey) (our_sk : SecretEncryptKey)
    (our_pk : PublicEncryptKey) :
    Except TcpRendezvousConnectError CandStream :=
  let shared_secret := sharedSecret our_sk their_pk
  match chooseLoop shared_secret (chooseBranch our_pk their_pk) all_incoming with
  | .ok s => .ok s
  | .error es => .error (.AllAttemptsFailed es)

/-- The frames written by `choose_connections`, in order: in the sender role,
one frame (the encrypted token) per live candidate stream processed up to and
including the first successful write; the validator role writes nothing. -/
def chooseWrites (secret : Nat) : ChooseRole → List CandidateEvent → List Ciphertext
  | .validator, _ => []
  | .sender, [] => []
  | .sender, c :: rest =>
    match c with
    | .err _ => chooseWrites secret .sender rest
    | .stream s =>
      encryptChoose secret ::
        match s.writeRes with
        | .sent => []
        | .writeErr _ => chooseWrites secret .sender rest

/-- The per-attempt errors collected while driving the candidates. -/
def attemptErrors (secret : Nat) (role : ChooseRole)
    (l : List CandidateEvent) : List SingleRendezvousAttemptError :=
  l.filterMap fun c =>
    match processCandidate secret role c with
    | .error e => some e
    | .ok _ => none

/-! ### Spec-level selection functions (refinement targets for 4.G)

These two definitions follow the spec's words for the choose protocol
(spec section 4.G steps 3-4), to be compared with `choose_connections`. -/

/-- Per the spec: the first candidate stream on which the token write
succeeds. -/
def firstWriteSuccess : List CandidateEvent → Option CandStream :=
  List.findSome? fun c =>
    match c with
    | .stream s =>
      match s.writeRes with
      | .sent => some s
      | .writeErr _ => none
    | .err _ => none

/-- Per the spec: the first candidate stream whose first frame decrypts to a
valid `ChooseMessage` under the shared secret. -/
def firstValidChoose (secret : Nat) : List CandidateEvent → Option CandStream :=
  List.findSome? fun c =>
    match c with
    | .stream s =>
      match s.firstRead with
      | .frame ct =>
        match decryptChoose secret ct with
        | some _ => some s
        | none => none
      | _ => none
    | .err _ => none

/-! ### Signalling exchange (src/tcp/stream.rs lines 309-341)

The serialised frame carried over the channel is symbolic: the serialisation
of some `TcpRendezvousMsg::Init`, or malformed bytes. The channel itself is
modelled by the outcome of sending one frame and by the event (with its
completion time, in seconds) that the receive side produces. -/

/-- A socket address: IP and port, abstractly. -/
structure SocketAddr where
  ip : Nat
  port : Nat
deriving DecidableEq, Repr

/-- `TcpRendezvousMsg::Init` (src/tcp/stream.rs lines 10-16). -/
structure TcpRendezvousMsg where
  enc_pk : PublicEncryptKey
  rendezvous_addr : SocketAddr
deriving DecidableEq, Repr

/-- A framed byte buffer on the signalling channel, symbolically. -/
inductive Bytes where
  | initMsg (m : TcpRendezvousMsg)
  | malformed (n : Nat)
deriving DecidableEq, Repr

/-- `serialisation::serialise` of an `Init` message (deterministic). -/
def serialise (m : TcpRendezvousMsg) : Bytes :=
  .initMsg m

/-- `serialisation::deserialise` into `TcpRendezvousMsg`. -/
def deserialise : Bytes → Except SerialisationError TcpRendezvousMsg
  | .initMsg m => .ok m
  | .malformed n => .error (.ser n)

/-- The event the receive composite (`map_err(ChannelRead).next_or_else(ChannelClosed)`)
resolves to, before the timeout is applied. -/
inductive RecvEvent where
  | closed
  | readErr (e : Nat)
  | frame (b : Bytes)
deriving DecidableEq, Repr

/-- A signalling channel: the result of sending one frame, and the receive
event together with the time (seconds from the start of the receive) at
which it resolves; `none` means the receive never resolves. -/
structure ChannelModel where
  sendRes : Except Nat Unit
  recvEvent : Option (Nat × RecvEvent)

/-- `with_timeout(limit)`: the inner event if it resolves strictly before the
window expires, otherwise `none` (the timeout fires). -/
def withTimeoutRecv (limit : Nat) : Option (Nat × RecvEvent) → Option RecvEvent
  | none => none
  | some (t, e) => if t < limit then some e else none

/-- `exchange_conn_info` (src/tcp/stream.rs lines 309-341): serialise, send
the frame, then receive one frame under the 120 s timeout, mapping each
failure to its dedicated error kind. -/
def exchange_conn_info (channel : ChannelModel) (_msg : TcpRendezvousMsg) :
    Except TcpRendezvousConnectError TcpRendezvousMsg :=
  match channel.sendRes with
  | .error e => .error (.ChannelWrite e)
  | .ok _ =>
    match withTimeoutRecv RENDEZVOUS_INFO_EXCHANGE_TIMEOUT_SEC channel.recvEvent with
    | none => .error .ChannelTimedOut
    | some .closed => .error .ChannelClosed
    | some (.readErr e) => .error (.ChannelRead e)
    | some (.frame b) =>
      match deserialise b with
      | .error e => .error (.DeserializeMsg e)
      | .ok m => .ok m

/-- An observable action of `exchange_conn_info` on the channel. -/
inductive ChanAction where
  | sendFrame (b : Bytes)
  | recvWait
deriving DecidableEq, Repr

/-- The channel actions `exchange_conn_info` performs, in order: the send of
the serialised message completes first, and only then (and only if the send
succeeded) is the receive polled. -/
def exchangeTrace (channel : ChannelModel) (msg : TcpRendezvousMsg) :
    List ChanAction :=
  let bytes := serialise msg
  match channel.sendRes with
  | .error _ => [.sendFrame bytes]
  | .ok _ => [.sendFrame bytes, .recvWait]

/-! ### The merged candidate stream and its timeout (src/tcp/stream.rs 277-295)

`all_incoming = connector.into_stream().select(incoming.until(Timeout 10 s))`:
the 10 s timeout is applied (via `.until`) to the listener's accepted
streams only; the outbound connector's single result is merged in with no
timeout of its own. Streams are lists of time-stamped events in completion
order; `select` merges by completion time. -/

/-- A time-stamped emission of a candidate event (time in seconds). -/
structure TimedCandidate where
  t : Nat
  ev : CandidateEvent
deriving DecidableEq, Repr

/-- `.until(timeout)`: the stream ends when the deadline fires; events
resolving strictly before the deadline pass. -/
def untilDeadline (deadline : Nat) (l : List TimedCandidate) : List TimedCandidate :=
  l.takeWhile fun e => e.t < deadline

/-- `select`: merge two streams in completion order. -/
def selectMerge : List TimedCandidate → List TimedCandidate → List TimedCandidate
  | [], ys => ys
  | x :: xs, [] => x :: xs
  | x :: xs, y :: ys =>
    if x.t ≤ y.t then x :: selectMerge xs (y :: ys)
    else y :: selectMerge (x :: xs) ys
termination_by xs ys => xs.length + ys.length

/-- The merged `all_incoming` stream (src/tcp/stream.rs lines 282-295):
the outbound connector's single event (if any) merged with the listener's
accepted streams, the latter truncated by the 10 s rendezvous timeout. -/
def all_incoming (connector : Option TimedCandidate)
    (incoming : List TimedCandidate) : List TimedCandidate :=
  selectMerge connector.toList (untilDeadline RENDEZVOUS_TIMEOUT_SEC incoming)

/-! ### Listener bind in rendezvous_connect (src/tcp/stream.rs lines 246-281) -/

/-- `P2p` configuration values reaching this code path (src/mc.rs, external
to stream.rs); none of them is consulted when binding the listener. -/
structure P2p where
  tcp_servers : List Nat
  udp_servers : List Nat
  force_use_local_port : Bool
deriving DecidableEq, Repr

/-- The wildcard bind target `addr!("0.0.0.0:0")` (src/tcp/stream.rs line 249). -/
def wildcardAddr : SocketAddr :=
  { ip := 0, port := 0 }

/-- The local endpoints `rendezvous_connect` uses. -/
structure RendezvousSetup where
  listener_bind : SocketAddr
  query_bind : SocketAddr
  connect_bind : SocketAddr
deriving DecidableEq, Repr

/-- The bind choices of `rendezvous_connect` (src/tcp/stream.rs lines
246-281): the listener is bound to `0.0.0.0:0`; `bind_addr` is the
listener's resulting local address (wildcard IP, OS-assigned port), and that
same address is passed to `rendezvous_addr` and to
`TcpStream::connect_reusable`. The configuration is not consulted. -/
def rendezvousSetup (_mc : P2p) (os_assigned_port : Nat) : RendezvousSetup :=
  let bind_addr : SocketAddr := { ip := 0, port := os_assigned_port }
  { listener_bind := wildcardAddr
    query_bind := bind_addr
    connect_bind := bind_addr }

/-- Role-indexed spec-level selection (4.G steps 3 and 4). -/
def chosenStreamSpec (secret : Nat) : ChooseRole → List CandidateEvent → Option CandStream
  | .sender, l => firstWriteSuccess l
  | .validator, l => firstValidChoose secret l

/-! ### UDP echo query (src/udp/addr_querier.rs lines 19-88) -/

/-- UDP query constants: retransmit interval (ms) and overall deadline (ms)
(src/udp/addr_querier.rs lines 57 and 84). -/
def UDP_RETRANSMIT_MS : Nat := 500

def UDP_QUERY_DEADLINE_MS : Nat := 3000

/-- The echo reply payload, symbolically: the authenticated encryption of an
external address under some shared secret, or other bytes. -/
inductive EchoCiphertext where
  | addrMsg (secret : Nat) (addr : Nat)
  | junk (n : Nat)
deriving DecidableEq, Repr

/-- A datagram arriving on the query socket: arrival time (ms from query
start), source address, payload. -/
structure UdpDatagram where
  t : Nat
  src : Nat
  payload : EchoCiphertext
deriving DecidableEq, Repr

/-- `shared_secret.decrypt` of an echo reply into a socket address. -/
def decryptAddr (secret : Nat) : EchoCiphertext → Option Nat
  | .addrMsg s a => if s = secret then some a else none
  | .junk _ => none

/-- Modelled from the spec: `QueryPublicAddrError` (its definition lives in
the repository's `mc.rs`, not under src/); the spec (section 4.B) lists the
kinds Bind, SendRequest, ReadResponse, Encrypt, Decrypt, ResponseTimeout. -/
inductive QueryPublicAddrError where
  | Bind (e : Nat)
  | SendRequest (e : Nat)
  | ReadResponse (e : Nat)
  | Encrypt (e : Nat)
  | Decrypt (e : EncryptionError)
  | ResponseTimeout
deriving DecidableEq, Repr

/-- `RemoteUdpRendezvousServer` (src/udp/addr_querier.rs lines 5-8). -/
structure RemoteUdpRendezvousServer where
  addr : Nat
  pub_key : PublicEncryptKey
deriving DecidableEq, Repr

/-- The receive loop of `query` (src/udp/addr_querier.rs lines 66-83) under
the 3 s overall timeout: datagrams are examined in arrival order; one
arriving at or after the deadline is never seen (the timeout fires first,
yielding `ResponseTimeout`); a datagram whose source is not the server is
skipped (`continue`); the first server datagram is decrypted, yielding the
external address or a `Decrypt` error. Exhaustion with no reply is the
timeout as well. -/
def udpRecvLoop (server_addr : Nat) (secret : Nat) (deadline : Nat) :
    List UdpDatagram → Except QueryPublicAddrError Nat
  | [] => .error .ResponseTimeout
  | d :: rest =>
    if deadline ≤ d.t then .error .ResponseTimeout
    else if d.src ≠ server_addr then udpRecvLoop server_addr secret deadline rest
    else
      match decryptAddr secret d.payload with
      | some a => .ok a
      | none => .error (.Decrypt .decryptFailed)

/-- `RemoteUdpRendezvousServer::query` (src/udp/addr_querier.rs lines 19-88):
derive the shared secret from the ephemeral client key and the server key,
then run the receive loop under the 3 s deadline. -/
def RemoteUdpRendezvousServer.query (self : RemoteUdpRendezvousServer)
    (client_sk : SecretEncryptKey) (dgs : List UdpDatagram) :
    Except QueryPublicAddrError Nat :=
  udpRecvLoop self.addr (sharedSecret client_sk self.pub_key)
    UDP_QUERY_DEADLINE_MS dgs

/-- The retransmit timer (src/udp/addr_querier.rs lines 40 and 57): created
with a zero duration, so the first send fires immediately; on each fire it
is reset to fire 500 ms later. `retransmitDeadline n` is the fire time of
the `n`-th send while the query is still pending. -/
def retransmitDeadline : Nat → Nat
  | 0 => 0
  | n + 1 => retransmitDeadline n + UDP_RETRANSMIT_MS

/-! ## Theorems -/

/-! ### Key-ordering lemmas -/

theorem keyCmp_self (a : List Nat) : keyCmp a a = .eq := by
  induction a with
  | nil => rfl
  | cons x xs ih => simp [keyCmp, ih]

theorem keyCmp_eq_iff {a b : List Nat} : keyCmp a b = .eq ↔ a = b := by
  induction a generalizing b with
  | nil => cases b <;> simp [keyCmp]
  | cons x xs ih =>
    cases b with
    | nil => simp [keyCmp]
    | cons y ys =>
      by_cases hxy : x < y
      · simp [keyCmp, hxy]
        omega
      · by_cases hyx : y < x
        · simp [keyCmp, hxy, hyx]
          omega
        · have hxy' : x = y := by omega
          simp [keyCmp, hxy, hyx, hxy', ih]

theorem keyCmp_swap (a b : List Nat) : keyCmp b a = (keyCmp a b).swap := by
  induction a generalizing b with
  | nil => cases b <;> simp [keyCmp, Ordering.swap]
  | cons x xs ih =>
    cases b with
    | nil => simp [keyCmp, Ordering.swap]
    | cons y ys =>
      by_cases hxy : x < y
      · have hyx : ¬ y < x := by omega
        simp [keyCmp, hxy, hyx, Ordering.swap]
      · by_cases hyx : y < x
        · simp [keyCmp, hxy, hyx, Ordering.swap]
        · simp [keyCmp, hxy, hyx, ih]

/-- C1: for distinct public keys exactly one of `K1 > K2`, `K2 > K1` holds
under the key ordering, and consequently in `choose_connections` exactly one
of the two peers takes the token-sending branch while the other takes the
validating branch. -/
theorem c1_key_trichotomy_one_sender (k1 k2 : PublicEncryptKey) (h : k1 ≠ k2) :
    ((pkGt k1 k2 = true ∧ pkGt k2 k1 = false) ∨
      (pkGt k1 k2 = false ∧ pkGt k2 k1 = true)) ∧
    ((chooseBranch k1 k2 = .sender ∧ chooseBranch k2 k1 = .validator) ∨
      (chooseBranch k1 k2 = .validator ∧ chooseBranch k2 k1 = .sender)) := by
  have hb : k1.bytes ≠ k2.bytes := by
    intro hbb
    exact h (by cases k1; cases k2; simpa using hbb)
  have hne : keyCmp k1.bytes k2.bytes ≠ .eq := fun hc => hb (keyCmp_eq_iff.mp hc)
  have hswap := keyCmp_swap k1.bytes k2.bytes
  have hcases :
      (pkGt k1 k2 = true ∧ pkGt k2 k1 = false) ∨
        (pkGt k1 k2 = false ∧ pkGt k2 k1 = true) := by
    cases hcc : keyCmp k1.bytes k2.bytes with
    | eq => exact absurd hcc hne
    | lt =>
      right
      rw [hcc] at hswap
      simp only [pkGt, hcc, hswap]
      decide
    | gt =>
      left
      rw [hcc] at hswap
      simp only [pkGt, hcc, hswap]
      decide
  refine ⟨hcases, ?_⟩
  rcases hcases with ⟨h1, h2⟩ | ⟨h1, h2⟩
  · left
    simp [chooseBranch, h1, h2]
  · right
    simp [chooseBranch, h1, h2]

/-- C1 witness: instantiated at the concrete keys `[1]` and `[0]`. -/
theorem c1_witness :
    ((⟨[1]⟩ : PublicEncryptKey) ≠ (⟨[0]⟩ : PublicEncryptKey)) ∧
    (((pkGt ⟨[1]⟩ ⟨[0]⟩ = true ∧ pkGt ⟨[0]⟩ ⟨[1]⟩ = false) ∨
        (pkGt ⟨[1]⟩ ⟨[0]⟩ = false ∧ pkGt ⟨[0]⟩ ⟨[1]⟩ = true)) ∧
      ((chooseBranch ⟨[1]⟩ ⟨[0]⟩ = .sender ∧ chooseBranch ⟨[0]⟩ ⟨[1]⟩ = .validator) ∨
        (chooseBranch ⟨[1]⟩ ⟨[0]⟩ = .validator ∧ chooseBranch ⟨[0]⟩ ⟨[1]⟩ = .sender))) :=
  ⟨by decide, c1_key_trichotomy_one_sender ⟨[1]⟩ ⟨[0]⟩ (by decide)⟩

/-! ### Correctness of the choose loop -/

theorem chooseLoop_sender_ok_iff (secret : Nat) (l : List CandidateEvent)
    (s : CandStream) :
    chooseLoop secret .sender l = .ok s ↔ firstWriteSuccess l = some s := by
  induction l with
  | nil => simp [chooseLoop, firstWriteSuccess]
  | cons c rest ih =>
    cases c with
    | err e =>
      simp only [chooseLoop, processCandidate, firstWriteSuccess, List.findSome?]
      rw [firstWriteSuccess] at ih
      cases hrest : chooseLoop secret .sender rest with
      | ok s' => simp [hrest, ← ih, hrest]
      | error es => simp [hrest, ← ih, hrest]
    | stream st =>
      cases hw : st.writeRes with
      | sent =>
        simp [chooseLoop, processCandidate, hw, firstWriteSuccess, List.findSome?]
      | writeErr e =>
        simp only [chooseLoop, processCandidate, hw, firstWriteSuccess,
          List.findSome?]
        rw [firstWriteSuccess] at ih
        cases hrest : chooseLoop secret .sender rest with
        | ok s' => simp [hrest, ← ih, hrest]
        | error es => simp [hrest, ← ih, hrest]

theorem chooseLoop_validator_ok_iff (secret : Nat) (l : List CandidateEvent)
    (s : CandStream) :
    chooseLoop secret .validator l = .ok s ↔ firstValidChoose secret l = some s := by
  induction l with
  | nil => simp [chooseLoop, firstValidChoose]
  | cons c rest ih =>
    rw [firstValidChoose] at ih
    cases c with
    | err e =>
      simp only [chooseLoop, processCandidate, firstValidChoose, List.findSome?]
      cases hrest : chooseLoop secret .validator rest with
      | ok s' => simp [hrest, ← ih, hrest]
      | error es => simp [hrest, ← ih, hrest]
    | stream st =>
      cases hr : st.firstRead with
      | readErr e =>
        simp only [chooseLoop, processCandidate, recv_choose_conn_msg, hr,
          firstValidChoose, List.findSome?]
        cases hrest : chooseLoop secret .validator rest with
        | ok s' => simp [hrest, ← ih, hrest]
        | error es => simp [hrest, ← ih, hrest]
      | hangUp =>
        simp only [chooseLoop, processCandidate, recv_choose_conn_msg, hr,
          firstValidChoose, List.findSome?]
        exact ih
      | frame ct =>
        cases hd : decryptChoose secret ct with
        | some m =>
          simp [chooseLoop, processCandidate, recv_choose_conn_msg, hr, hd,
            firstValidChoose, List.findSome?]
        | none =>
          simp only [chooseLoop, processCandidate, recv_choose_conn_msg, hr, hd,
            firstValidChoose, List.findSome?]
          cases hrest : chooseLoop secret .validator rest with
          | ok s' => simp [hrest, ← ih, hrest]
          | error es => simp [hrest, ← ih, hrest]

theorem chooseLoop_allFail (secret : Nat) (role : ChooseRole)
    (l : List CandidateEvent)
    (h : ∀ c ∈ l, ∀ s, processCandidate secret role c ≠ .ok (some s)) :
    chooseLoop secret role l = .error (attemptErrors secret role l) := by
  induction l with
  | nil => simp [chooseLoop, attemptErrors]
  | cons c rest ih =>
    have hc := h c (List.mem_cons_self c rest)
    have hrest : ∀ c' ∈ rest, ∀ s, processCandidate secret role c' ≠ .ok (some s) :=
      fun c' hc' => h c' (List.mem_cons_of_mem c hc')
    cases hp : processCandidate secret role c with
    | ok o =>
      cases o with
      | some s => exact absurd hp (hc s)
      | none =>
        simp [chooseLoop, hp, ih hrest, attemptErrors, List.filterMap_cons]
    | error e =>
      simp [chooseLoop, hp, ih hrest, attemptErrors, List.filterMap_cons]

theorem chooseLoop_err_cons (secret : Nat) (role : ChooseRole)
    (c : CandidateEvent) (rest : List CandidateEvent)
    (e : SingleRendezvousAttemptError) (s : CandStream)
    (hc : processCandidate secret role c = .error e)
    (hrest : chooseLoop secret role rest = .ok s) :
    chooseLoop secret role (c :: rest) = .ok s := by
  simp [chooseLoop, hc, hrest]

theorem chooseWrites_replicate (secret : Nat) (role : ChooseRole)
    (l : List CandidateEvent) :
    chooseWrites secret role l =
      List.replicate (chooseWrites secret role l).length (encryptChoose secret) := by
  cases role with
  | validator => simp [chooseWrites]
  | sender =>
    induction l with
    | nil => simp [chooseWrites]
    | cons c rest ih =>
      cases c with
      | err e => simpa [chooseWrites] using ih
      | stream st =>
        cases hw : st.writeRes with
        | sent => simp [chooseWrites, hw, List.replicate]
        | writeErr e2 =>
          simp only [chooseWrites, hw, List.length_cons, List.replicate]
          exact congrArg (encryptChoose secret :: ·) ih

theorem choose_connections_ok_iff (l : List CandidateEvent)
    (their_pk : PublicEncryptKey) (our_sk : SecretEncryptKey)
    (our_pk : PublicEncryptKey) (s : CandStream) :
    choose_connections l their_pk our_sk our_pk = .ok s ↔
      chooseLoop (sharedSecret our_sk their_pk) (chooseBranch our_pk their_pk) l
        = .ok s := by
  unfold choose_connections
  cases hcl : chooseLoop (sharedSecret our_sk their_pk)
      (chooseBranch our_pk their_pk) l <;> simp [hcl]

/-- C2: in `choose_connections` the `our_pk > their_pk` side writes one
framed message per candidate stream — the authenticated encryption of
`ChooseMessage` under the shared secret derived from `our_sk` and
`their_pk` — and yields the first stream on which that write succeeds; the
other side reads one frame per candidate, drops streams whose peer hung up
with no frame, and yields the first stream whose first frame decrypts to a
valid `ChooseMessage`. -/
theorem c2_choose_connections_selection (their_pk : PublicEncryptKey)
    (our_sk : SecretEncryptKey) (our_pk : PublicEncryptKey)
    (l : List CandidateEvent) (s : CandStream) :
    (choose_connections l their_pk our_sk our_pk = .ok s ↔
      chosenStreamSpec (sharedSecret our_sk their_pk)
        (chooseBranch our_pk their_pk) l = some s) ∧
    chooseWrites (sharedSecret our_sk their_pk) (chooseBranch our_pk their_pk) l
      = List.replicate
          (chooseWrites (sharedSecret our_sk their_pk)
            (chooseBranch our_pk their_pk) l).length
          (encryptChoose (sharedSecret our_sk their_pk)) ∧
    (∀ i w, recv_choose_conn_msg ⟨i, w, .hangUp⟩ (sharedSecret our_sk their_pk)
      = .ok none) := by
  refine ⟨?_, chooseWrites_replicate _ _ _, ?_⟩
  · rw [choose_connections_ok_iff]
    cases hb : chooseBranch our_pk their_pk with
    | sender => simp [chosenStreamSpec, chooseLoop_sender_ok_iff]
    | validator => simp [chosenStreamSpec, chooseLoop_validator_ok_iff]
  · intro i w
    simp [recv_choose_conn_msg]

/-- C3: when no candidate succeeds, `choose_connections` fails with the
single error `AllAttemptsFailed` carrying the collected per-attempt errors;
an individual candidate's error never aborts the attempt on its own. -/
theorem c3_all_attempts_failed (their_pk : PublicEncryptKey)
    (our_sk : SecretEncryptKey) (our_pk : PublicEncryptKey)
    (l : List CandidateEvent)
    (h : ∀ c ∈ l, ∀ s, processCandidate (sharedSecret our_sk their_pk)
      (chooseBranch our_pk their_pk) c ≠ .ok (some s)) :
    choose_connections l their_pk our_sk our_pk =
      .error (.AllAttemptsFailed (attemptErrors (sharedSecret our_sk their_pk)
        (chooseBranch our_pk their_pk) l)) ∧
    (∀ (c : CandidateEvent) (rest : List CandidateEvent)
        (e : SingleRendezvousAttemptError) (s : CandStream),
      processCandidate (sharedSecret our_sk their_pk)
          (chooseBranch our_pk their_pk) c = .error e →
      choose_connections rest their_pk our_sk our_pk = .ok s →
      choose_connections (c :: rest) their_pk our_sk our_pk = .ok s) := by
  constructor
  · have hl := chooseLoop_allFail (sharedSecret our_sk their_pk)
      (chooseBranch our_pk their_pk) l h
    simp [choose_connections, hl]
  · intro c rest e s hc hr
    rw [choose_connections_ok_iff] at hr ⊢
    exact chooseLoop_err_cons _ _ _ _ _ _ hc hr

/-- C3 witness: a `Connect` error event followed by a hang-up stream, on the
validating side; the attempt fails with exactly that one collected error. -/
theorem c3_witness :
    (∀ c ∈ ([.err (.Accept 3), .stream ⟨0, .sent, .hangUp⟩] :
        List CandidateEvent), ∀ s,
      processCandidate (sharedSecret ⟨0⟩ ⟨[1]⟩) (chooseBranch ⟨[0]⟩ ⟨[1]⟩) c
        ≠ .ok (some s)) ∧
    (choose_connections [.err (.Accept 3), .stream ⟨0, .sent, .hangUp⟩]
        ⟨[1]⟩ ⟨0⟩ ⟨[0]⟩ =
      .error (.AllAttemptsFailed (attemptErrors (sharedSecret ⟨0⟩ ⟨[1]⟩)
        (chooseBranch ⟨[0]⟩ ⟨[1]⟩)
        [.err (.Accept 3), .stream ⟨0, .sent, .hangUp⟩])) ∧
    (∀ (c : CandidateEvent) (rest : List CandidateEvent)
        (e : SingleRendezvousAttemptError) (s : CandStream),
      processCandidate (sharedSecret ⟨0⟩ ⟨[1]⟩) (chooseBranch ⟨[0]⟩ ⟨[1]⟩) c
          = .error e →
      choose_connections rest ⟨[1]⟩ ⟨0⟩ ⟨[0]⟩ = .ok s →
      choose_connections (c :: rest) ⟨[1]⟩ ⟨0⟩ ⟨[0]⟩ = .ok s)) := by
  have hrole : chooseBranch (⟨[0]⟩ : PublicEncryptKey) ⟨[1]⟩ = .validator := by
    decide
  have hfail : ∀ c ∈ ([.err (.Accept 3), .stream ⟨0, .sent, .hangUp⟩] :
      List CandidateEvent), ∀ s,
      processCandidate (sharedSecret ⟨0⟩ ⟨[1]⟩) (chooseBranch ⟨[0]⟩ ⟨[1]⟩) c
        ≠ .ok (some s) := by
    intro c hc s
    fin_cases hc <;> simp [hrole, processCandidate, recv_choose_conn_msg]
  exact ⟨hfail, c3_all_attempts_failed ⟨[1]⟩ ⟨0⟩ ⟨[0]⟩ _ hfail⟩

/-- C8: the `Encrypt` variant of `SingleRendezvousAttemptError` carries the
description "error decrypting data" — identical to the `Decrypt` variant's —
even though it denotes an encryption failure. -/
theorem c8_encrypt_description_mislabel (e : SerialisationError)
    (e2 : EncryptionError) :
    (SingleRendezvousAttemptError.Encrypt e).description
        = "error decrypting data" ∧
    (SingleRendezvousAttemptError.Encrypt e).description
        = (SingleRendezvousAttemptError.Decrypt e2).description ∧
    (SingleRendezvousAttemptError.Encrypt e).description
        ≠ "error encrypting data" := by
  refine ⟨rfl, rfl, ?_⟩
  show ("error decrypting data" : String) ≠ "error encrypting data"
  decide

/-- C9: with equal public keys both sides take the validating branch (the
comparison is strict), no choose token is ever written, and if (as then
follows) no candidate's first frame is a valid `ChooseMessage`, the attempt
cannot select a connection. -/
theorem c9_equal_keys_no_selection (k : PublicEncryptKey)
    (sk : SecretEncryptKey) (l : List CandidateEvent)
    (h : ∀ (st : CandStream) (ct : Ciphertext), CandidateEvent.stream st ∈ l →
      st.firstRead = .frame ct → decryptChoose (sharedSecret sk k) ct = none) :
    pkGt k k = false ∧
    chooseBranch k k = .validator ∧
    chooseWrites (sharedSecret sk k) (chooseBranch k k) l = [] ∧
    choose_connections l k sk k =
      .error (.AllAttemptsFailed
        (attemptErrors (sharedSecret sk k) .validator l)) := by
  have hpk : pkGt k k = false := by
    simp only [pkGt, keyCmp_self]
    decide
  have hrole : chooseBranch k k = .validator := by
    simp [chooseBranch, hpk]
  have hfail : ∀ c ∈ l, ∀ s,
      processCandidate (sharedSecret sk k) ChooseRole.validator c
        ≠ .ok (some s) := by
    intro c hc s
    cases c with
    | err e => simp [processCandidate]
    | stream st =>
      cases hr : st.firstRead with
      | readErr e => simp [processCandidate, recv_choose_conn_msg, hr]
      | hangUp => simp [processCandidate, recv_choose_conn_msg, hr]
      | frame ct =>
        have hd := h st ct hc hr
        simp [processCandidate, recv_choose_conn_msg, hr, hd]
  have hl := chooseLoop_allFail (sharedSecret sk k) .validator l hfail
  refine ⟨hpk, hrole, by simp [hrole, chooseWrites], ?_⟩
  simp [choose_connections, hrole, hl]

/-- C9 witness: equal keys, one stream with an alien frame and one that
hangs up; the attempt fails with the one collected `Decrypt` error. -/
theorem c9_witness :
    (∀ (st : CandStream) (ct : Ciphertext),
      CandidateEvent.stream st ∈
        ([.stream ⟨1, .sent, .frame (.junk 9)⟩, .stream ⟨2, .sent, .hangUp⟩] :
          List CandidateEvent) →
      st.firstRead = .frame ct →
      decryptChoose (sharedSecret ⟨2⟩ ⟨[5]⟩) ct = none) ∧
    (pkGt ⟨[5]⟩ ⟨[5]⟩ = false ∧
      chooseBranch ⟨[5]⟩ ⟨[5]⟩ = .validator ∧
      chooseWrites (sharedSecret ⟨2⟩ ⟨[5]⟩) (chooseBranch ⟨[5]⟩ ⟨[5]⟩)
        [.stream ⟨1, .sent, .frame (.junk 9)⟩, .stream ⟨2, .sent, .hangUp⟩]
        = [] ∧
      choose_connections
        [.stream ⟨1, .sent, .frame (.junk 9)⟩, .stream ⟨2, .sent, .hangUp⟩]
        ⟨[5]⟩ ⟨2⟩ ⟨[5]⟩ =
        .error (.AllAttemptsFailed (attemptErrors (sharedSecret ⟨2⟩ ⟨[5]⟩)
          .validator
          [.stream ⟨1, .sent, .frame (.junk 9)⟩,
            .stream ⟨2, .sent, .hangUp⟩]))) := by
  have hnof : ∀ (st : CandStream) (ct : Ciphertext),
      CandidateEvent.stream st ∈
        ([.stream ⟨1, .sent, .frame (.junk 9)⟩, .stream ⟨2, .sent, .hangUp⟩] :
          List CandidateEvent) →
      st.firstRead = .frame ct →
      decryptChoose (sharedSecret ⟨2⟩ ⟨[5]⟩) ct = none := by
    intro st ct hmem hfr
    simp only [List.mem_cons, List.not_mem_nil, or_false] at hmem
    rcases hmem with h1 | h1
    · cases h1
      simp only [ReadOutcome.frame.injEq] at hfr
      subst hfr
      rfl
    · cases h1
      simp at hfr
  exact ⟨hnof, c9_equal_keys_no_selection ⟨[5]⟩ ⟨2⟩ _ hnof⟩

/-- C4: `exchange_conn_info` serialises the `InitMsg`, sends it as one
frame, then awaits exactly one frame under the 120 s timeout, and maps each
failure to its dedicated kind: window expiry to `ChannelTimedOut`, channel
end with no frame to `ChannelClosed`, deserialisation failure to
`DeserializeMsg`, channel faults to `ChannelWrite`/`ChannelRead`; a timeout
is never reported as any other kind. -/
theorem c4_exchange_error_mapping (ch : ChannelModel) (m : TcpRendezvousMsg) :
    (exchange_conn_info ch m = .error .ChannelTimedOut ↔
      ch.sendRes = .ok () ∧
        withTimeoutRecv RENDEZVOUS_INFO_EXCHANGE_TIMEOUT_SEC ch.recvEvent
          = none) ∧
    (withTimeoutRecv RENDEZVOUS_INFO_EXCHANGE_TIMEOUT_SEC ch.recvEvent = none ↔
      ch.recvEvent = none ∨ ∃ t e, ch.recvEvent = some (t, e) ∧
        RENDEZVOUS_INFO_EXCHANGE_TIMEOUT_SEC ≤ t) ∧
    (exchange_conn_info ch m = .error .ChannelClosed ↔
      ch.sendRes = .ok () ∧
        withTimeoutRecv RENDEZVOUS_INFO_EXCHANGE_TIMEOUT_SEC ch.recvEvent
          = some .closed) ∧
    (∀ e, exchange_conn_info ch m = .error (.ChannelRead e) ↔
      ch.sendRes = .ok () ∧
        withTimeoutRecv RENDEZVOUS_INFO_EXCHANGE_TIMEOUT_SEC ch.recvEvent
          = some (.readErr e)) ∧
    (∀ e, exchange_conn_info ch m = .error (.ChannelWrite e) ↔
      ch.sendRes = .error e) ∧
    (∀ e, exchange_conn_info ch m = .error (.DeserializeMsg e) ↔
      ch.sendRes = .ok () ∧ ∃ n,
        withTimeoutRecv RENDEZVOUS_INFO_EXCHANGE_TIMEOUT_SEC ch.recvEvent
          = some (.frame (.malformed n)) ∧ e = .ser n) ∧
    (∀ m2, exchange_conn_info ch m = .ok m2 ↔
      ch.sendRes = .ok () ∧
        withTimeoutRecv RENDEZVOUS_INFO_EXCHANGE_TIMEOUT_SEC ch.recvEvent
          = some (.frame (serialise m2))) := by
  have hwt : withTimeoutRecv RENDEZVOUS_INFO_EXCHANGE_TIMEOUT_SEC ch.recvEvent
        = none ↔
      ch.recvEvent = none ∨ ∃ t e, ch.recvEvent = some (t, e) ∧
        RENDEZVOUS_INFO_EXCHANGE_TIMEOUT_SEC ≤ t := by
    cases hr : ch.recvEvent with
    | none => simp [withTimeoutRecv]
    | some te =>
      obtain ⟨t, e⟩ := te
      simp only [withTimeoutRecv]
      by_cases hlt : t < RENDEZVOUS_INFO_EXCHANGE_TIMEOUT_SEC
      · rw [if_pos hlt]
        constructor
        · intro h2
          exact Option.noConfusion h2
        · rintro (h2 | ⟨t2, e2, h2, hle⟩)
          · exact Option.noConfusion h2
          · rw [Option.some.injEq, Prod.mk.injEq] at h2
            obtain ⟨rfl, rfl⟩ := h2
            exact absurd hle (by omega)
      · rw [if_neg hlt]
        constructor
        · intro _
          exact Or.inr ⟨t, e, rfl, by omega⟩
        · intro _
          rfl
  refine ⟨?_, hwt, ?_, ?_, ?_, ?_, ?_⟩ <;>
    (cases hs : ch.sendRes with
     | error e0 => simp [exchange_conn_info, hs]
     | ok u =>
       cases u
       cases hw : withTimeoutRecv RENDEZVOUS_INFO_EXCHANGE_TIMEOUT_SEC
           ch.recvEvent with
       | none => simp [exchange_conn_info, hs, hw]
       | some re =>
         cases re with
         | closed => simp [exchange_conn_info, hs, hw]
         | readErr e1 => simp [exchange_conn_info, hs, hw]
         | frame b =>
           cases b <;>
             simp [exchange_conn_info, hs, hw, deserialise, serialise, eq_comm])

/-- C7: on the signalling channel the local `InitMsg` is sent strictly
before the attempt waits to receive the peer's: the trace starts with the
single send of the serialised message, and the receive is polled only after
(and only if) that send completed. -/
theorem c7_send_precedes_receive (ch : ChannelModel) (m : TcpRendezvousMsg) :
    (exchangeTrace ch m = [.sendFrame (serialise m)] ∨
      exchangeTrace ch m = [.sendFrame (serialise m), .recvWait]) ∧
    ((exchangeTrace ch m).head? = some (.sendFrame (serialise m))) ∧
    ((exchangeTrace ch m).countP (fun a =>
      match a with
      | .sendFrame _ => true
      | .recvWait => false) = 1) ∧
    (ChanAction.recvWait ∈ exchangeTrace ch m ↔ ch.sendRes = .ok ()) := by
  cases hs : ch.sendRes with
  | error e0 =>
    refine ⟨?_, ?_, ?_, ?_⟩ <;>
      simp [exchangeTrace, hs, List.countP_cons]
  | ok u =>
    cases u
    refine ⟨?_, ?_, ?_, ?_⟩ <;>
      simp [exchangeTrace, hs, List.countP_cons]

/-- C10: `rendezvous_connect` binds its listener to the wildcard address
`0.0.0.0:0` unconditionally; the resulting ephemeral endpoint is the one
used for the rendezvous-address query and for the outbound reusable
connect, and no `P2p` configuration value changes the bind address. -/
theorem c10_wildcard_bind (mc mc2 : P2p) (p : Nat) :
    (rendezvousSetup mc p).listener_bind = wildcardAddr ∧
    wildcardAddr.ip = 0 ∧ wildcardAddr.port = 0 ∧
    (rendezvousSetup mc p).query_bind = { ip := 0, port := p } ∧
    (rendezvousSetup mc p).connect_bind = (rendezvousSetup mc p).query_bind ∧
    rendezvousSetup mc p = rendezvousSetup mc2 p := by
  simp [rendezvousSetup, wildcardAddr]

/-! ### The 10 s truncation of the candidate stream (claim about 4.F) -/

theorem mem_untilDeadline_t_lt (d : Nat) (l : List TimedCandidate)
    (e : TimedCandidate) (he : e ∈ untilDeadline d l) : e.t < d := by
  induction l with
  | nil => simp [untilDeadline] at he
  | cons x rest ih =>
    rw [untilDeadline, List.takeWhile_cons] at he
    by_cases hx : x.t < d
    · rw [if_pos (by simpa using hx)] at he
      rcases List.mem_cons.mp he with rfl | hrest
      · exact hx
      · exact ih hrest
    · rw [if_neg (by simpa using hx)] at he
      exact absurd he (List.not_mem_nil e)

theorem mem_untilDeadline_self (d : Nat) (l : List TimedCandidate)
    (e : TimedCandidate) (he : e ∈ untilDeadline d l) : e ∈ l := by
  induction l with
  | nil => simp [untilDeadline] at he
  | cons x rest ih =>
    rw [untilDeadline, List.takeWhile_cons] at he
    by_cases hx : x.t < d
    · rw [if_pos (by simpa using hx)] at he
      rcases List.mem_cons.mp he with rfl | hrest
      · exact List.mem_cons_self _ _
      · exact List.mem_cons_of_mem _ (ih hrest)
    · rw [if_neg (by simpa using hx)] at he
      exact absurd he (List.not_mem_nil e)

theorem mem_untilDeadline_of_sorted (d : Nat) (l : List TimedCandidate)
    (hsort : l.Pairwise (fun a b => a.t ≤ b.t)) (e : TimedCandidate)
    (he : e ∈ l) (hlt : e.t < d) : e ∈ untilDeadline d l := by
  induction l with
  | nil => simp at he
  | cons x rest ih =>
    rw [untilDeadline, List.takeWhile_cons]
    rcases List.mem_cons.mp he with rfl | hrest
    · rw [if_pos (by simpa using hlt)]
      exact List.mem_cons_self _ _
    · have hxle : x.t ≤ e.t := (List.pairwise_cons.mp hsort).1 e hrest
      have hx : x.t < d := lt_of_le_of_lt hxle hlt
      rw [if_pos (by simpa using hx)]
      exact List.mem_cons_of_mem _ (ih (List.pairwise_cons.mp hsort).2 hrest)

theorem mem_selectMerge (a : TimedCandidate) (xs ys : List TimedCandidate) :
    a ∈ selectMerge xs ys ↔ a ∈ xs ∨ a ∈ ys := by
  induction xs, ys using selectMerge.induct with
  | case1 ys => simp [selectMerge]
  | case2 x xs => simp [selectMerge]
  | case3 x xs y ys hle ih =>
    rw [selectMerge, if_pos hle]
    simp only [List.mem_cons, ih]
    tauto
  | case4 x xs y ys hle ih =>
    rw [selectMerge, if_neg hle]
    simp only [List.mem_cons, ih]
    tauto

/-- C5 counterexample: the claim that after the 10 s timeout no further
candidate stream is emitted from any source is false — the outbound
connector's result is not subject to the `.until` timeout and is emitted
here at t = 11 s. -/
theorem c5_counterexample :
    ¬ (∀ e ∈ all_incoming (some ⟨11, .stream ⟨0, .sent, .hangUp⟩⟩) [],
        e.t < RENDEZVOUS_TIMEOUT_SEC) := by
  intro h
  have hmem : (⟨11, .stream ⟨0, .sent, .hangUp⟩⟩ : TimedCandidate) ∈
      all_incoming (some ⟨11, .stream ⟨0, .sent, .hangUp⟩⟩) [] := by
    simp [all_incoming, untilDeadline, selectMerge]
  exact absurd (h _ hmem) (by simp [RENDEZVOUS_TIMEOUT_SEC])

/-- C5 (amended): the 10 s rendezvous timeout truncates only the listener's
accepted streams: every event of `all_incoming` either is the outbound
connector's result or was accepted strictly before the deadline; listener
streams accepted before the deadline (the stream being in completion order)
and the connector result are still emitted. -/
theorem c5_amended_listener_truncation (conn : Option TimedCandidate)
    (inc : List TimedCandidate) :
    (∀ e ∈ all_incoming conn inc,
      e ∈ conn.toList ∨ (e ∈ inc ∧ e.t < RENDEZVOUS_TIMEOUT_SEC)) ∧
    (inc.Pairwise (fun a b => a.t ≤ b.t) →
      ∀ e ∈ inc, e.t < RENDEZVOUS_TIMEOUT_SEC → e ∈ all_incoming conn inc) ∧
    (∀ e ∈ conn.toList, e ∈ all_incoming conn inc) := by
  refine ⟨?_, ?_, ?_⟩
  · intro e he
    rcases (mem_selectMerge e _ _).mp he with h1 | h2
    · exact Or.inl h1
    · exact Or.inr ⟨mem_untilDeadline_self _ _ _ h2,
        mem_untilDeadline_t_lt _ _ _ h2⟩
  · intro hsort e he hlt
    exact (mem_selectMerge e _ _).mpr
      (Or.inr (mem_untilDeadline_of_sorted _ _ hsort e he hlt))
  · intro e he
    exact (mem_selectMerge e _ _).mpr (Or.inl he)

/-- C5 witness: with a listener accept at t = 1 s and a late connector
result at t = 11 s, both are emitted by `all_incoming`. -/
theorem c5_witness :
    ((⟨1, .stream ⟨1, .sent, .hangUp⟩⟩ : TimedCandidate) ∈
      all_incoming (some ⟨11, .stream ⟨0, .sent, .hangUp⟩⟩)
        [⟨1, .stream ⟨1, .sent, .hangUp⟩⟩, ⟨12, .stream ⟨2, .sent, .hangUp⟩⟩]) ∧
    ((⟨11, .stream ⟨0, .sent, .hangUp⟩⟩ : TimedCandidate) ∈
      all_incoming (some ⟨11, .stream ⟨0, .sent, .hangUp⟩⟩)
        [⟨1, .stream ⟨1, .sent, .hangUp⟩⟩, ⟨12, .stream ⟨2, .sent, .hangUp⟩⟩]) := by
  have h := c5_amended_listener_truncation
    (some ⟨11, .stream ⟨0, .sent, .hangUp⟩⟩)
    [⟨1, .stream ⟨1, .sent, .hangUp⟩⟩, ⟨12, .stream ⟨2, .sent, .hangUp⟩⟩]
  refine ⟨h.2.1 ?_ _ ?_ ?_, h.2.2 _ ?_⟩
  · decide
  · decide
  · decide
  · decide

/-! ### UDP query behaviour -/

theorem udpRecvLoop_timeout (sa secret deadline : Nat) (dgs : List UdpDatagram)
    (h : ∀ d ∈ dgs, d.src ≠ sa ∨ deadline ≤ d.t) :
    udpRecvLoop sa secret deadline dgs = .error .ResponseTimeout := by
  induction dgs with
  | nil => rfl
  | cons d rest ih =>
    rcases h d (List.mem_cons_self d rest) with hsrc | ht
    · by_cases htd : deadline ≤ d.t
      · rw [udpRecvLoop, if_pos htd]
      · rw [udpRecvLoop, if_neg htd, if_pos hsrc]
        exact ih fun d' hd' => h d' (List.mem_cons_of_mem d hd')
    · rw [udpRecvLoop, if_pos ht]

theorem udpRecvLoop_skip (sa secret deadline : Nat) (d : UdpDatagram)
    (rest : List UdpDatagram) (hsrc : d.src ≠ sa) (ht : d.t < deadline) :
    udpRecvLoop sa secret deadline (d :: rest) =
      udpRecvLoop sa secret deadline rest := by
  rw [udpRecvLoop, if_neg (by omega), if_pos hsrc]

theorem udpRecvLoop_first_server (sa secret deadline : Nat)
    (pre : List UdpDatagram) (d : UdpDatagram) (post : List UdpDatagram)
    (hpre : ∀ p ∈ pre, p.src ≠ sa ∧ p.t < deadline)
    (hd : d.src = sa) (ht : d.t < deadline) :
    udpRecvLoop sa secret deadline (pre ++ d :: post) =
      match decryptAddr secret d.payload with
      | some a => .ok a
      | none => .error (.Decrypt .decryptFailed) := by
  induction pre with
  | nil =>
    rw [List.nil_append, udpRecvLoop, if_neg (by omega),
      if_neg (not_not_intro hd)]
  | cons p pre ih =>
    obtain ⟨hps, hpt⟩ := hpre p (List.mem_cons_self p pre)
    rw [List.cons_append, udpRecvLoop, if_neg (by omega), if_pos hps]
    exact ih fun q hq => hpre q (List.mem_cons_of_mem p hq)

theorem retransmitDeadline_eq (n : Nat) :
    retransmitDeadline n = UDP_RETRANSMIT_MS * n := by
  induction n with
  | zero => rfl
  | succ k ih => rw [retransmitDeadline, ih, Nat.mul_succ]

/-- C6: the UDP echo query fires its first send immediately (the retransmit
timer is created already elapsed) and retransmits every 500 ms while
pending; the 3 s deadline yields exactly `ResponseTimeout`; datagrams from
any address other than the server's are silently skipped; and the first
server datagram within the window yields the decrypted external address, or
the `Decrypt` error kind when decryption fails. -/
theorem c6_udp_query_behaviour (server : RemoteUdpRendezvousServer)
    (client_sk : SecretEncryptKey) (dgs : List UdpDatagram) :
    retransmitDeadline 0 = 0 ∧
    (∀ n, retransmitDeadline (n + 1) = retransmitDeadline n + UDP_RETRANSMIT_MS) ∧
    (∀ n, retransmitDeadline n = UDP_RETRANSMIT_MS * n) ∧
    ((∀ d ∈ dgs, d.src ≠ server.addr ∨ UDP_QUERY_DEADLINE_MS ≤ d.t) →
      server.query client_sk dgs = .error .ResponseTimeout) ∧
    (∀ (d : UdpDatagram) (rest : List UdpDatagram),
      d.src ≠ server.addr → d.t < UDP_QUERY_DEADLINE_MS →
      server.query client_sk (d :: rest) = server.query client_sk rest) ∧
    (∀ (pre : List UdpDatagram) (d : UdpDatagram) (post : List UdpDatagram),
      (∀ p ∈ pre, p.src ≠ server.addr ∧ p.t < UDP_QUERY_DEADLINE_MS) →
      d.src = server.addr → d.t < UDP_QUERY_DEADLINE_MS →
      server.query client_sk (pre ++ d :: post) =
        match decryptAddr (sharedSecret client_sk server.pub_key) d.payload with
        | some a => .ok a
        | none => .error (.Decrypt .decryptFailed)) := by
  refine ⟨rfl, fun n => rfl, retransmitDeadline_eq, ?_, ?_, ?_⟩
  · intro h
    exact udpRecvLoop_timeout _ _ _ _ h
  · intro d rest hsrc ht
    exact udpRecvLoop_skip _ _ _ _ _ hsrc ht
  · intro pre d post hpre hd ht
    exact udpRecvLoop_first_server _ _ _ _ _ _ hpre hd ht

/-- C6 witness: an alien datagram then a valid server reply decrypting to
address 42; and a run with only the alien datagram, which times out. -/
theorem c6_witness :
    RemoteUdpRendezvousServer.query ⟨7, ⟨[1]⟩⟩ ⟨3⟩
        [⟨100, 9, .junk 0⟩, ⟨200, 7, .addrMsg (sharedSecret ⟨3⟩ ⟨[1]⟩) 42⟩]
      = .ok 42 ∧
    RemoteUdpRendezvousServer.query ⟨7, ⟨[1]⟩⟩ ⟨3⟩ [⟨100, 9, .junk 0⟩]
      = .error .ResponseTimeout := by
  have h := c6_udp_query_behaviour ⟨7, ⟨[1]⟩⟩ ⟨3⟩ [⟨100, 9, .junk 0⟩]
  constructor
  · have h6 := h.2.2.2.2.2 [⟨100, 9, .junk 0⟩]
      ⟨200, 7, .addrMsg (sharedSecret ⟨3⟩ ⟨[1]⟩) 42⟩ []
      (by intro p hp; fin_cases hp; exact ⟨by decide, by decide⟩)
      rfl (by decide)
    simpa [decryptAddr] using h6
  · exact h.2.2.2.1 (by intro d hd; fin_cases hd; left; decide)
